import Mathlib

/-!
Verification of the fontshare-downloader repository against its specification.

The repository's core behaviours are shallowly embedded below:

* the rate-limited fetcher (`download_font`, `runFetch`) from
  `fontshare_downloader.py` and `fontshare_bulk_downloader.py`;
* the file-system operation trace of a single download (`downloadOps`),
  used to reason about write atomicity;
* the semaphore-bounded worker pool (`PoolStep`, `Reaches`) modelling the
  `asyncio.Semaphore(max_concurrent)` discipline of `download_all_fonts`;
* catalog discovery (`discover_fonts`, `extract_font_names`) from
  `fontshare_downloader.py`;
* archive extraction (`extract_fonts_from_zip`, `extract_all_paths`) from
  `install_fonts.py` and `extract_all_fonts.py`;
* the installation strategy chains from `proper_font_installer.py`,
  `install_fonts.py` and `advanced_font_installer.py`.

Machine integers play no role here; bodies of HTTP responses are modelled as
lists of bytes (`List Nat`), the file system as a map from identifier to the
content stored at that identifier's archive path (the archive tree is
partitioned by identifier: `fonts/<name>/<name>.zip`).
-/

namespace Fontshare

/-! ### Fetcher data model -/

/-- A font-family identifier, e.g. `"satoshi"`. -/
abbrev Identifier := String

/-- Raw archive bytes. -/
abbrev Content := List Nat

/-- An HTTP response as observed by `download_font`: a status code and a body.
Transport errors are modelled separately via `Except`. -/
structure HttpResp where
  status : Nat
  body : Content
deriving DecidableEq, Repr

/-- The remote backend: per identifier, either a response or a raised
transport error (the `except Exception` branch of the source). -/
abbrev Backend := Identifier → Except String HttpResp

/-- The archive store: for each identifier, the content of the file at its
archive path `fonts/<name>/<name>.zip`, or `none` when absent.  The archive
tree is partitioned by identifier, so this is the whole relevant state. -/
abbrev FS := Identifier → Option Content

/-- Write `c` at identifier `n`'s archive path. -/
def fsSet (fs : FS) (n : Identifier) (c : Content) : FS :=
  fun m => if m = n then some c else fs m

/-- `font_file.exists() and font_file.stat().st_size > 0` from
`fontshare_downloader.download_font` (line 218) and
`fontshare_bulk_downloader.download_all_fonts` (line 64). -/
def archiveNonEmpty (fs : FS) (n : Identifier) : Bool :=
  match fs n with
  | some c => decide (0 < c.length)
  | none => false

/-- The per-identifier outcome as observably reported by the source
(log/print lines distinguish the three cases: "Skipping …", "Downloaded …",
"Failed …"/"Error …"). -/
inductive Outcome
  | success
  | skipped
  | failed (reason : String)
deriving DecidableEq, Repr

/-- Result of processing one identifier: the reported outcome, the archive
store afterwards, and the number of network requests issued. -/
structure DLStep where
  outcome : Outcome
  fs : FS
  requests : Nat

/-- `download_font` from `fontshare_downloader.py` (lines 208-241); the body
of the per-identifier loop of `fontshare_bulk_downloader.download_all_fonts`
(lines 57-90) has the same logic.  If the archive already exists non-empty,
skip with no request; otherwise issue exactly one request: on status 200
write the body to the archive path, on any other status fail with reason
`"HTTP <status>"`, on a transport error fail with the error message. -/
def download_font (backend : Backend) (fs : FS) (name : Identifier) : DLStep :=
  if archiveNonEmpty fs name then
    { outcome := Outcome.skipped, fs := fs, requests := 0 }
  else
    match backend name with
    | Except.ok r =>
        if r.status = 200 then
          { outcome := Outcome.success, fs := fsSet fs name r.body, requests := 1 }
        else
          { outcome := Outcome.failed ("HTTP " ++ toString r.status), fs := fs, requests := 1 }
    | Except.error e =>
        { outcome := Outcome.failed e, fs := fs, requests := 1 }

/-- Result of a whole fetch run: one outcome per input identifier, the final
archive store, and the total number of network requests issued. -/
structure FetchRun where
  outcomes : List (Identifier × Outcome)
  fs : FS
  requests : Nat

/-- One fetch run over a list of identifiers (the loop of
`fontshare_bulk_downloader.download_all_fonts`; in
`fontshare_downloader.download_all_fonts` the same per-identifier steps run
under a semaphore, but the archive tree is partitioned by identifier, so the
sequential composition is the faithful state-level model). -/
def runFetch (backend : Backend) : FS → List Identifier → FetchRun
  | fs, [] => { outcomes := [], fs := fs, requests := 0 }
  | fs, n :: rest =>
      let s := download_font backend fs n
      let r := runFetch backend s.fs rest
      { outcomes := (n, s.outcome) :: r.outcomes, fs := r.fs,
        requests := s.requests + r.requests }

/-- The `failed_fonts` list accumulated by
`fontshare_bulk_downloader.download_all_fonts` (lines 86, 90): identifiers
whose outcome was a failure, in processing order. -/
def failedFonts (outs : List (Identifier × Outcome)) : List Identifier :=
  (outs.filter (fun p => match p.2 with | Outcome.failed _ => true | _ => false)).map
    (fun p => p.1)

/-- A backend in which every identifier responds `HTTP 404` with an empty
body — the mock of Scenario B. -/
def backend404 : Backend := fun _ => Except.ok { status := 404, body := [] }

/-- The empty archive store. -/
def fsEmpty : FS := fun _ => none

/-- An archive store in which only `"bar"` has a (non-empty) archive. -/
def fsBar : FS := fun m => if m = "bar" then some [7] else none

/-! ### C1 -/

/-- Helper: a run over identifiers whose archives are all already non-empty
skips every one of them, touches nothing, and issues zero requests. -/
theorem runFetch_all_nonempty (backend : Backend) (fs : FS) (names : List Identifier)
    (h : ∀ n ∈ names, archiveNonEmpty fs n = true) :
    runFetch backend fs names =
      { outcomes := names.map (fun n => (n, Outcome.skipped)), fs := fs, requests := 0 } := by
  induction names with
  | nil => rfl
  | cons n rest ih =>
      have hn : archiveNonEmpty fs n = true := h n (List.mem_cons_self n rest)
      have hstep : download_font backend fs n =
          { outcome := Outcome.skipped, fs := fs, requests := 0 } := by
        unfold download_font
        rw [hn]
        simp
      have hrest := ih (fun m hm => h m (List.mem_cons_of_mem n hm))
      simp [runFetch, hstep, hrest]

/-- C1: if an identifier's archive already exists with non-zero size, the
fetcher records Skipped and issues no network request for it.  The claim's
second half is amended: the second run yields Skipped for every identifier
with zero additional requests *provided* every identifier's archive is
non-empty when the second run starts (in particular, whenever every
identifier of the first run ended Skipped or ended Success with a non-empty
body); identifiers that failed in the first run are re-requested, see the
counterexample. -/
theorem c1_skip_and_conditional_idempotence (backend : Backend) (fs : FS)
    (name : Identifier) (names : List Identifier) :
    (archiveNonEmpty fs name = true →
      download_font backend fs name =
        { outcome := Outcome.skipped, fs := fs, requests := 0 }) ∧
    ((∀ n ∈ names, archiveNonEmpty (runFetch backend fs names).fs n = true) →
      runFetch backend (runFetch backend fs names).fs names =
        { outcomes := names.map (fun n => (n, Outcome.skipped)),
          fs := (runFetch backend fs names).fs, requests := 0 }) := by
  constructor
  · intro h
    unfold download_font
    rw [h]
    simp
  · intro h
    exact runFetch_all_nonempty backend _ names h

/-- C1 witness: concretely, with `"bar"` already downloaded (archive `[7]`),
the single-identifier run against the 404 backend skips `"bar"`, keeps the
store unchanged and issues zero requests. -/
theorem c1_witness :
    (∀ n ∈ ["bar"], archiveNonEmpty (runFetch backend404 fsBar ["bar"]).fs n = true) ∧
    runFetch backend404 (runFetch backend404 fsBar ["bar"]).fs ["bar"] =
      { outcomes := [("bar", Outcome.skipped)],
        fs := (runFetch backend404 fsBar ["bar"]).fs, requests := 0 } := by
  refine ⟨by decide, ?_⟩
  exact (c1_skip_and_conditional_idempotence backend404 fsBar "bar" ["bar"]).2 (by decide)

/-- C1 counterexample: against an unchanged catalog in which `"foo"` answers
HTTP 404, the second run does *not* yield Skipped — it issues one more
request and fails again — refuting "running the fetch twice against an
unchanged catalog yields Skipped for every identifier on the second run with
zero additional network calls". -/
theorem c1_counterexample :
    (runFetch backend404 (runFetch backend404 fsEmpty ["foo"]).fs ["foo"]).outcomes
        = [("foo", Outcome.failed "HTTP 404")] ∧
    (runFetch backend404 (runFetch backend404 fsEmpty ["foo"]).fs ["foo"]).requests = 1 := by
  constructor <;> rfl

/-! ### File-system operation trace of one download (for C2) -/

/-- A file-system operation, as performed by `download_font`.  Paths are
component lists rooted at the output directory. -/
inductive FsOp
  | mkdir (p : List String)
  | write (p : List String) (data : Content)
  | rename (src dst : List String)
deriving DecidableEq, Repr

/-- `font_dir` of the source: `fonts/<name>`. -/
def archiveDirPath (n : Identifier) : List String := ["fonts", n]

/-- The final archive path of the source: `fonts/<name>/<name>.zip`. -/
def archivePath (n : Identifier) : List String := ["fonts", n, n ++ ".zip"]

/-- The file-system operations performed by `download_font`
(`fontshare_downloader.py` lines 213-228): the font directory is created
first (`font_dir.mkdir(exist_ok=True)`), then — unless the non-empty archive
already exists — on a 200 response the body is written with
`open(font_file, 'wb')` directly at the final archive path.  No temporary
file and no rename appear anywhere in the source. -/
def downloadOps (backend : Backend) (fs : FS) (name : Identifier) : List FsOp :=
  FsOp.mkdir (archiveDirPath name) ::
    (if archiveNonEmpty fs name then []
     else
       match backend name with
       | Except.ok r =>
           if r.status = 200 then [FsOp.write (archivePath name) r.body] else []
       | Except.error _ => [])

/-- Whether an operation is a rename. -/
def FsOp.isRename : FsOp → Bool
  | FsOp.rename _ _ => true
  | _ => false

/-- The contents observable at a path while `FsOp.write p data` executes,
modelling an interruption after any number of bytes: every prefix of `data`
can be present at `p` mid-write. -/
def writeObservable (data : Content) : List Content :=
  (List.range (data.length + 1)).map (fun k => data.take k)

/-- A backend in which every identifier answers 200 with the two-byte body
`[1, 2]`. -/
def backendOk12 : Backend := fun _ => Except.ok { status := 200, body := [1, 2] }

/-! ### C2 -/

/-- C2 amended: the download never performs a rename (so there is no
write-then-rename step); on a non-200 response or a transport error the
archive store is unchanged and no write is performed; and on a 200 response
for a not-yet-downloaded identifier the performed operations are exactly a
`mkdir` of the font directory followed by a single write of the body
*directly at the final archive path*.  Consequently an interrupted mid-write
fetch can leave a partial file at the final path (see the counterexample);
the original claim's write-to-temporary/rename-on-success mechanism is not
in the code. -/
theorem c2_direct_write_no_rename (backend : Backend) (fs : FS) (name : Identifier) :
    (∀ op ∈ downloadOps backend fs name, op.isRename = false) ∧
    (∀ st body, backend name = Except.ok { status := st, body := body } → st ≠ 200 →
      (download_font backend fs name).fs = fs ∧
      ∀ p d, FsOp.write p d ∉ downloadOps backend fs name) ∧
    (∀ e, backend name = Except.error e →
      (download_font backend fs name).fs = fs ∧
      ∀ p d, FsOp.write p d ∉ downloadOps backend fs name) ∧
    (∀ body, backend name = Except.ok { status := 200, body := body } →
      archiveNonEmpty fs name = false →
      downloadOps backend fs name =
        [FsOp.mkdir (archiveDirPath name), FsOp.write (archivePath name) body]) := by
  refine ⟨?_, ?_, ?_, ?_⟩
  · intro op hop
    cases hne : archiveNonEmpty fs name with
    | true =>
        simp [downloadOps, hne] at hop
        simp [hop, FsOp.isRename]
    | false =>
        cases hb : backend name with
        | ok r =>
            by_cases h200 : r.status = 200
            · simp [downloadOps, hne, hb, h200] at hop
              rcases hop with h | h <;> simp [h, FsOp.isRename]
            · simp [downloadOps, hne, hb, h200] at hop
              simp [hop, FsOp.isRename]
        | error e =>
            simp [downloadOps, hne, hb] at hop
            simp [hop, FsOp.isRename]
  · intro st body hb h200
    constructor
    · cases hne : archiveNonEmpty fs name with
      | true => simp [download_font, hne]
      | false => simp [download_font, hne, hb, h200]
    · intro p d hmem
      cases hne : archiveNonEmpty fs name with
      | true => simp [downloadOps, hne] at hmem
      | false => simp [downloadOps, hne, hb, h200] at hmem
  · intro e hb
    constructor
    · cases hne : archiveNonEmpty fs name with
      | true => simp [download_font, hne]
      | false => simp [download_font, hne, hb]
    · intro p d hmem
      cases hne : archiveNonEmpty fs name with
      | true => simp [downloadOps, hne] at hmem
      | false => simp [downloadOps, hne, hb] at hmem
  · intro body hb hne
    simp [downloadOps, hne, hb]

/-- C2 witness: at the concrete 404 backend, fetching `"foo"` leaves the
store unchanged and performs no write and no rename; at the concrete 200
backend, the operation list is exactly mkdir-then-direct-write. -/
theorem c2_witness :
    (download_font backend404 fsEmpty "foo").fs = fsEmpty ∧
    (FsOp.write (archivePath "foo") [] ∉ downloadOps backend404 fsEmpty "foo") ∧
    downloadOps backendOk12 fsEmpty "foo" =
      [FsOp.mkdir (archiveDirPath "foo"), FsOp.write (archivePath "foo") [1, 2]] := by
  refine ⟨?_, ?_, ?_⟩
  · exact ((c2_direct_write_no_rename backend404 fsEmpty "foo").2.1 404 [] rfl
      (by decide)).1
  · exact ((c2_direct_write_no_rename backend404 fsEmpty "foo").2.1 404 [] rfl
      (by decide)).2 (archivePath "foo") []
  · exact (c2_direct_write_no_rename backendOk12 fsEmpty "foo").2.2.2 [1, 2] rfl (by decide)

/-- C2 counterexample: on a 200 response with body `[1, 2]` the single write
targets the *final* archive path, and an interruption after the first byte
observably leaves the partial content `[1]` — non-empty and different from
the full body — at that final path.  This refutes "at no point — including
when a fetch is interrupted mid-write — is a partially written archive
present at the identifier's final archive path". -/
theorem c2_counterexample :
    FsOp.write (archivePath "foo") [1, 2] ∈ downloadOps backendOk12 fsEmpty "foo" ∧
    [1] ∈ writeObservable [1, 2] ∧ ([1] : Content) ≠ [1, 2] ∧ ([1] : Content) ≠ [] := by
  decide

/-! ### C3 -/

/-- C3: for an identifier whose archive is not already present non-empty,
exactly one request is issued; a non-200 status yields
`Failed ("HTTP " ++ status)` and a transport error yields the error message
as reason; and in the Scenario-B run (mock 404 for `"foo"`), the outcome is
`Failed "HTTP 404"` and `"foo"` is in the aggregate `failed_fonts` list. -/
theorem c3_failed_outcomes (backend : Backend) (fs : FS) (name : Identifier) :
    (archiveNonEmpty fs name = false → (download_font backend fs name).requests = 1) ∧
    (∀ st body, archiveNonEmpty fs name = false →
      backend name = Except.ok { status := st, body := body } → st ≠ 200 →
      (download_font backend fs name).outcome = Outcome.failed ("HTTP " ++ toString st)) ∧
    (∀ e, archiveNonEmpty fs name = false → backend name = Except.error e →
      (download_font backend fs name).outcome = Outcome.failed e) ∧
    ((runFetch backend404 fsEmpty ["foo"]).outcomes
        = [("foo", Outcome.failed "HTTP 404")] ∧
      (runFetch backend404 fsEmpty ["foo"]).requests = 1 ∧
      failedFonts (runFetch backend404 fsEmpty ["foo"]).outcomes = ["foo"]) := by
  refine ⟨?_, ?_, ?_, by decide⟩
  · intro hne
    cases hb : backend name with
    | ok r =>
        by_cases h200 : r.status = 200
        · simp [download_font, hne, hb, h200]
        · simp [download_font, hne, hb, h200]
    | error e => simp [download_font, hne, hb]
  · intro st body hne hb h200
    simp [download_font, hne, hb, h200]
  · intro e hne hb
    simp [download_font, hne, hb]

/-- C3 witness: applying the theorem at the 404 backend, empty store and
identifier `"foo"` gives the concrete failed outcome with one request. -/
theorem c3_witness :
    (download_font backend404 fsEmpty "foo").requests = 1 ∧
    (download_font backend404 fsEmpty "foo").outcome = Outcome.failed "HTTP 404" := by
  refine ⟨(c3_failed_outcomes backend404 fsEmpty "foo").1 (by decide), ?_⟩
  exact (c3_failed_outcomes backend404 fsEmpty "foo").2.1 404 [] (by decide) rfl (by decide)

/-! ### Worker-pool model (for C4)

`fontshare_downloader.download_all_fonts` (line 256) creates
`asyncio.Semaphore(max_concurrent)` and each `download_font` task (line 210)
runs its whole body — the existence check, the request, the write and the
post-success `asyncio.sleep(rate_limit)` — inside `async with semaphore`.
We model this as a step relation on counters of tasks by phase: a task is
`pending` until it acquires a slot, `holding` while it runs the existence
check under the slot, `inflight` while its request is outstanding,
`cooldown` while it sleeps after a 200 response (still under the slot), and
`done` once the slot is released. -/

/-- Counts of download tasks in each phase of `download_font`. -/
structure PoolState where
  avail : Nat
  pending : Nat
  holding : Nat
  inflight : Nat
  cooldown : Nat
  done : Nat
deriving DecidableEq, Repr

/-- One scheduler step of the semaphore-bounded pool:
`acquire` (enter `async with semaphore`, only when a slot is free),
`skipRelease` (archive already present: return, releasing the slot),
`issue` (start the HTTP request), `respondOk` (200 response: write and begin
the rate-limit sleep), `respondFail` (non-200 or transport error: return,
releasing the slot), and `wake` (sleep over: return, releasing the slot). -/
inductive PoolStep : PoolState → PoolState → Prop
  | acquire (s : PoolState) (ha : 0 < s.avail) (hp : 0 < s.pending) :
      PoolStep s { s with avail := s.avail - 1, pending := s.pending - 1,
                          holding := s.holding + 1 }
  | skipRelease (s : PoolState) (h : 0 < s.holding) :
      PoolStep s { s with holding := s.holding - 1, avail := s.avail + 1,
                          done := s.done + 1 }
  | issue (s : PoolState) (h : 0 < s.holding) :
      PoolStep s { s with holding := s.holding - 1, inflight := s.inflight + 1 }
  | respondOk (s : PoolState) (h : 0 < s.inflight) :
      PoolStep s { s with inflight := s.inflight - 1, cooldown := s.cooldown + 1 }
  | respondFail (s : PoolState) (h : 0 < s.inflight) :
      PoolStep s { s with inflight := s.inflight - 1, avail := s.avail + 1,
                          done := s.done + 1 }
  | wake (s : PoolState) (h : 0 < s.cooldown) :
      PoolStep s { s with cooldown := s.cooldown - 1, avail := s.avail + 1,
                          done := s.done + 1 }

/-- The initial pool state for bound `c` and `n` identifiers: the semaphore
holds `c` slots, all tasks are pending. -/
def poolInit (c n : Nat) : PoolState :=
  { avail := c, pending := n, holding := 0, inflight := 0, cooldown := 0, done := 0 }

/-- States reachable by the pool from its initial state. -/
inductive Reaches (c n : Nat) : PoolState → Prop
  | init : Reaches c n (poolInit c n)
  | step {s t : PoolState} : Reaches c n s → PoolStep s t → Reaches c n t

/-- Slot accounting: free slots plus slot-holding tasks always equal the
semaphore size. -/
theorem pool_slot_invariant {c n : Nat} {s : PoolState} (h : Reaches c n s) :
    s.avail + s.holding + s.inflight + s.cooldown = c := by
  induction h with
  | init => simp [poolInit]
  | step _ hstep ih =>
      cases hstep with
      | acquire ha hp => simp at ih ⊢; omega
      | skipRelease hh => simp at ih ⊢; omega
      | issue hh => simp at ih ⊢; omega
      | respondOk hh => simp at ih ⊢; omega
      | respondFail hh => simp at ih ⊢; omega
      | wake hh => simp at ih ⊢; omega

/-! ### C4 -/

/-- C4: in every state the semaphore-bounded pool can reach, the number of
in-flight download requests is at most the concurrency bound `c`: every
worker holds a semaphore slot for the whole of `download_font`, including
while its request is outstanding. -/
theorem c4_inflight_bounded {c n : Nat} {s : PoolState} (h : Reaches c n s) :
    s.inflight ≤ c := by
  have hinv := pool_slot_invariant h
  omega

/-- C4 witness: with bound 2 and 3 identifiers, the state reached by
acquiring a slot and issuing the request has one in-flight request, which is
at most 2. -/
theorem c4_witness :
    ∃ s : PoolState, Reaches 2 3 s ∧ s.inflight = 1 ∧ s.inflight ≤ 2 := by
  refine ⟨_, Reaches.step (Reaches.step Reaches.init
      (PoolStep.acquire (poolInit 2 3) (by decide) (by decide)))
      (PoolStep.issue _ (by decide)), ?_, ?_⟩
  · rfl
  · exact c4_inflight_bounded (Reaches.step (Reaches.step Reaches.init
      (PoolStep.acquire (poolInit 2 3) (by decide) (by decide)))
      (PoolStep.issue _ (by decide)))

/-! ### Installation strategy chains (for C5 and C10) -/

/-- The three strategies of `proper_font_installer.WindowsFontInstaller`
in their fixed order: the WinAPI method, the per-user registry method, and
the (admin-only) system registry method. -/
inductive WinStrategy
  | winapi
  | userReg
  | sysReg
deriving DecidableEq, Repr

/-- The fixed strategy order of `proper_font_installer.install_font`
(lines 128-142). -/
def chainOrder : List WinStrategy :=
  [WinStrategy.winapi, WinStrategy.userReg, WinStrategy.sysReg]

/-- The environment one `install_font` call runs in: whether the process is
elevated, and the result each strategy would produce if attempted (`ok` =
its copy-and-register sequence completes, `error msg` = it fails printing
`msg`). -/
structure InstallEnv where
  admin : Bool
  winapiRes : Except String Unit
  userRegRes : Except String Unit
  sysRegRes : Except String Unit

/-- Result a given strategy would produce in the environment. -/
def strategyRes (env : InstallEnv) : WinStrategy → Except String Unit
  | WinStrategy.winapi => env.winapiRes
  | WinStrategy.userReg => env.userRegRes
  | WinStrategy.sysReg => env.sysRegRes

/-- Whether a strategy result is a success. -/
def resOk : Except String Unit → Bool
  | Except.ok _ => true
  | Except.error _ => false

/-- One run of the chain: the Boolean the source returns, the strategies
attempted in order, and the error messages printed by failing strategies in
order. -/
structure ChainRun where
  ok : Bool
  attempted : List WinStrategy
  errors : List String
deriving DecidableEq, Repr

/-- `proper_font_installer.install_font` (lines 128-142): try the WinAPI
method; if it fails, the user registry method; if that fails too and the
process is elevated, the system registry method; return `True` at the first
success, else `False`.  Each failing strategy prints its error before the
chain moves on. -/
def install_font (env : InstallEnv) : ChainRun :=
  match env.winapiRes with
  | Except.ok _ => { ok := true, attempted := [WinStrategy.winapi], errors := [] }
  | Except.error e1 =>
      match env.userRegRes with
      | Except.ok _ =>
          { ok := true, attempted := [WinStrategy.winapi, WinStrategy.userReg],
            errors := [e1] }
      | Except.error e2 =>
          if env.admin then
            match env.sysRegRes with
            | Except.ok _ =>
                { ok := true, attempted := chainOrder, errors := [e1, e2] }
            | Except.error e3 =>
                { ok := false, attempted := chainOrder, errors := [e1, e2, e3] }
          else
            { ok := false, attempted := [WinStrategy.winapi, WinStrategy.userReg],
              errors := [e1, e2] }

/-- The two strategies of `install_fonts.FontInstaller.install_font` on
Windows: the registry method, then (in the `except` branch only) the simple
copy. -/
inductive IFStrategy
  | registry
  | simpleCopy
deriving DecidableEq, Repr

/-- One run of the `install_fonts` chain. -/
structure IFRun where
  ok : Bool
  attempted : List IFStrategy
deriving DecidableEq, Repr

/-- `install_fonts.FontInstaller.install_font_windows` (lines 66-96): copy
and registry registration both run inside one `try`, whose `except` logs and
returns `False`; the method therefore never raises to its caller and returns
`True` exactly when both the copy and the registration succeeded. -/
def install_font_windows (copyOk regOk : Bool) : Except String Bool :=
  Except.ok (copyOk && regOk)

/-- `install_fonts.FontInstaller.install_font` (lines 108-118) on Windows:
`try: return install_font_windows(...)` with the simple-copy fallback in the
`except` branch.  Because `install_font_windows` catches its own exceptions,
the fallback only runs if the callee raises — which it cannot. -/
def fi_install_font (copyOk regOk simpleCopyOk : Bool) : IFRun :=
  match install_font_windows copyOk regOk with
  | Except.ok b => { ok := b, attempted := [IFStrategy.registry] }
  | Except.error _ =>
      { ok := simpleCopyOk, attempted := [IFStrategy.registry, IFStrategy.simpleCopy] }

/-! ### C5 -/

/-- C5 amended: for `proper_font_installer.install_font` the claim holds as
stated — the attempted strategies form a non-empty initial segment of the
fixed order, the privileged system strategy is never attempted without
elevation, the chain returns Installed exactly when some attempted strategy
succeeds, every attempted strategy before the last one failed (so nothing is
attempted after the first success), and on overall failure the last printed
error is the last attempted strategy's error.  The amendment concerns
`install_fonts.install_font`, whose simple-copy fallback is unreachable on a
strategy failure (see the counterexample): there a failing first strategy
ends the chain even though a further available unprivileged strategy exists. -/
theorem c5_chain_fallback (env : InstallEnv) :
    ((install_font env).attempted = chainOrder.take 1 ∨
     (install_font env).attempted = chainOrder.take 2 ∨
     (install_font env).attempted = chainOrder.take 3) ∧
    (env.admin = false → WinStrategy.sysReg ∉ (install_font env).attempted) ∧
    ((install_font env).ok = true ↔
      ∃ s ∈ (install_font env).attempted, resOk (strategyRes env s) = true) ∧
    (∀ s ∈ (install_font env).attempted.dropLast, resOk (strategyRes env s) = false) ∧
    ((install_font env).ok = false →
      ∃ s e, (install_font env).attempted.getLast? = some s ∧
        strategyRes env s = Except.error e ∧
        (install_font env).errors.getLast? = some e) := by
  obtain ⟨admin, wr, ur, sr⟩ := env
  cases wr with
  | ok u =>
      refine ⟨Or.inl rfl, ?_, ?_, ?_, ?_⟩ <;>
        simp [install_font, chainOrder, strategyRes, resOk]
  | error e1 =>
      cases ur with
      | ok u =>
          refine ⟨Or.inr (Or.inl rfl), ?_, ?_, ?_, ?_⟩ <;>
            simp [install_font, chainOrder, strategyRes, resOk]
      | error e2 =>
          cases admin with
          | false =>
              refine ⟨Or.inr (Or.inl rfl), ?_, ?_, ?_, ?_⟩ <;>
                simp [install_font, chainOrder, strategyRes, resOk]
          | true =>
              cases sr with
              | ok u =>
                  refine ⟨Or.inr (Or.inr rfl), ?_, ?_, ?_, ?_⟩ <;>
                    simp [install_font, chainOrder, strategyRes, resOk]
              | error e3 =>
                  refine ⟨Or.inr (Or.inr rfl), ?_, ?_, ?_, ?_⟩ <;>
                    simp [install_font, chainOrder, strategyRes, resOk]

/-- C5 witness: in a non-elevated environment where the WinAPI and user
registry strategies both fail, the chain attempts exactly those two in
order, does not attempt the privileged strategy, returns Failed, and the
last error is the user registry strategy's. -/
theorem c5_witness :
    (install_font
        { admin := false, winapiRes := Except.error "winapi boom",
          userRegRes := Except.error "registry boom",
          sysRegRes := Except.ok () }).attempted
      = [WinStrategy.winapi, WinStrategy.userReg] ∧
    WinStrategy.sysReg ∉ (install_font
        { admin := false, winapiRes := Except.error "winapi boom",
          userRegRes := Except.error "registry boom",
          sysRegRes := Except.ok () }).attempted ∧
    (install_font
        { admin := false, winapiRes := Except.error "winapi boom",
          userRegRes := Except.error "registry boom",
          sysRegRes := Except.ok () }).errors.getLast? = some "registry boom" := by
  have h := c5_chain_fallback
    { admin := false, winapiRes := Except.error "winapi boom",
      userRegRes := Except.error "registry boom", sysRegRes := Except.ok () }
  refine ⟨by decide, h.2.1 rfl, ?_⟩
  obtain ⟨s, e, hs, hres, herr⟩ := h.2.2.2.2 (by decide)
  have hse : s = WinStrategy.userReg := by
    have : (install_font
        { admin := false, winapiRes := Except.error "winapi boom",
          userRegRes := Except.error "registry boom",
          sysRegRes := Except.ok () }).attempted.getLast?
        = some WinStrategy.userReg := by decide
    rw [this] at hs
    exact (Option.some_inj.mp hs).symm
  rw [hse] at hres
  have hres2 : Except.error (ε := String) (α := Unit) "registry boom" = Except.error e := by
    rw [← hres]
    rfl
  rw [← Except.error.inj hres2] at herr
  exact herr

/-- C5 counterexample: in `install_fonts.install_font`, when the registry
strategy's copy succeeds but its registration fails (so the strategy returns
`False` without raising), the chain ends Failed having attempted only the
registry strategy — the simple-copy strategy, available, unprivileged and
able to succeed (its oracle is `true` here), is never attempted.  This
refutes the claim that the chain attempts the strategies in order until one
succeeds and fails only when every available strategy fails. -/
theorem c5_counterexample :
    (fi_install_font true false true).ok = false ∧
    (fi_install_font true false true).attempted = [IFStrategy.registry] ∧
    IFStrategy.simpleCopy ∉ (fi_install_font true false true).attempted := by
  decide

/-! ### C10 -/

/-- `proper_font_installer.install_font_winapi_method` (lines 80-110): copy
the file (an exception, e.g. a failed copy, yields `False`), then call
`AddFontResourceW`; only a result `> 0` — a successful registration — yields
`True`, otherwise the strategy reports `False`. -/
def install_font_winapi_method (copyOk : Bool) (addFontResult : Nat) : Bool :=
  if copyOk then (if 0 < addFontResult then true else false) else false

/-- `advanced_font_installer.install_single_font` (lines 91-110): copies the
file, then computes `registry_success` and `api_success` — and returns
`True` unconditionally, consulting neither.  Only an exception (a failed
copy) produces `False`. -/
def install_single_font (copyOk regOk apiOk : Bool) : Bool :=
  if copyOk then
    let _registry_success := regOk
    let _api_success := apiOk
    true
  else false

/-- C10 amended: in `proper_font_installer.install_font_winapi_method` a
registration failure (`AddFontResourceW` returning 0) makes the strategy
report Failed even when the copy succeeded, and the strategy succeeds only
when both the copy and the registration succeeded; but
`advanced_font_installer.install_single_font` reports success whenever the
copy succeeds, regardless of registration failures — the claim does not hold
for every strategy of the source. -/
theorem c10_registration_required (copyOk regOk apiOk : Bool) (r : Nat) :
    install_font_winapi_method copyOk 0 = false ∧
    (install_font_winapi_method copyOk r = true ↔ copyOk = true ∧ 0 < r) ∧
    install_single_font true regOk apiOk = true := by
  refine ⟨?_, ?_, ?_⟩
  · cases copyOk <;> simp [install_font_winapi_method]
  · cases copyOk <;> simp [install_font_winapi_method]
  · simp [install_single_font]

/-- C10 witness: concretely, with a successful copy but `AddFontResourceW`
returning 0 the WinAPI strategy reports `false`, while with one font added
it reports `true`. -/
theorem c10_witness :
    install_font_winapi_method true 0 = false ∧
    install_font_winapi_method true 1 = true := by
  refine ⟨(c10_registration_required true false false 1).1, ?_⟩
  exact (c10_registration_required true false false 1).2.1.mpr ⟨rfl, by decide⟩

/-- C10 counterexample: `advanced_font_installer.install_single_font` with a
successful copy and *both* registration side effects failing still reports
success — refuting "completing only the copy step without the registration
step never makes the strategy report success". -/
theorem c10_counterexample : install_single_font true false false = true := by
  decide

/-! ### Archive extraction (for C6 and C7) -/

/-- One archive entry: its full name inside the archive (with `/`-separated
embedded directories) and its bytes. -/
structure ZipEntry where
  filename : String
  content : Content
deriving DecidableEq, Repr

/-- The extension allow-list of `install_fonts.extract_fonts_from_zip`
(line 51). -/
def font_extensions : List String := [".ttf", ".otf", ".woff", ".woff2", ".eot"]

/-- The extension allow-list of `proper_font_installer.extract_fonts_from_zip`
(line 115) and of `extract_all_fonts.main` (line 57). -/
def ttfOtf : List String := [".ttf", ".otf"]

/-- ASCII lower-casing of one character, as Python's `str.lower()` acts on
the ASCII names found in these archives. -/
def lowerChar (c : Char) : Char :=
  if 65 ≤ c.toNat ∧ c.toNat ≤ 90 then Char.ofNat (c.toNat + 32) else c

/-- `str.lower()` on ASCII text. -/
def strLower (s : String) : String := String.mk (s.data.map lowerChar)

/-- `str.endswith(suffix)`: the characters of `suffix` end the string. -/
def strEndsWith (s suffix : String) : Bool :=
  decide (s.data.drop (s.data.length - suffix.data.length) = suffix.data)

/-- `any(file_info.filename.lower().endswith(ext) for ext in exts)`. -/
def isFontFilename (exts : List String) (name : String) : Bool :=
  exts.any (fun ext => strEndsWith (strLower name) ext)

/-- Split a character list at `/` separators. -/
def splitSlash : List Char → List (List Char)
  | [] => [[]]
  | c :: rest =>
      match splitSlash rest with
      | [] => [[c]]
      | h :: t => if c = '/' then [] :: h :: t else (c :: h) :: t

/-- Split an archive entry name into its `/`-separated components. -/
def splitPath (s : String) : List String :=
  (splitSlash s.data).map (fun l => String.mk l)

/-- `Path(filename).name`: the base name, dropping embedded directories. -/
def baseName (s : String) : String := (splitPath s).getLastD ""

/-- `install_fonts.extract_fonts_from_zip` (lines 48-64): selects the
entries whose lowercased filename ends with an allowed extension and
extracts each with `zip_ref.extract(file_info, self.temp_dir)` — which
recreates the entry's embedded directory components under the temp
directory, so the returned file path is the temp directory followed by all
of the entry's path components. -/
def extract_fonts_from_zip (tempDir : List String) (entries : List ZipEntry) :
    List (List String) :=
  (entries.filter (fun e => isFontFilename font_extensions e.filename)).map
    (fun e => tempDir ++ splitPath e.filename)

/-- `extract_all_fonts.main` (lines 56-64): selects `.ttf`/`.otf` entries
and writes each entry's bytes at `user_fonts / Path(filename).name` — the
base name only. -/
def extract_all_paths (userFonts : List String) (entries : List ZipEntry) :
    List (List String) :=
  (entries.filter (fun e => isFontFilename ttfOtf e.filename)).map
    (fun e => userFonts ++ [baseName e.filename])

/-! ### C6 -/

/-- C6 amended: both extractors select exactly the entries whose lowercased
filename ends with an extension of their allow-list, and
`extract_all_fonts` names every produced file by the entry's base name only,
under the target directory.  The amendment: in
`install_fonts.extract_fonts_from_zip` the extracted (temporary) file path
is *not* base-name-only — `ZipFile.extract` recreates the archive's embedded
directory components under the temp directory (see the counterexample); only
the final install destination (`shutil.copy2` to `dir / font_path.name`)
uses the base name. -/
theorem c6_selection_and_names (tempDir userFonts : List String)
    (entries : List ZipEntry) (p : List String) :
    (p ∈ extract_fonts_from_zip tempDir entries ↔
      ∃ e ∈ entries, isFontFilename font_extensions e.filename = true ∧
        p = tempDir ++ splitPath e.filename) ∧
    (p ∈ extract_all_paths userFonts entries ↔
      ∃ e ∈ entries, isFontFilename ttfOtf e.filename = true ∧
        p = userFonts ++ [baseName e.filename]) := by
  constructor
  · simp only [extract_fonts_from_zip, List.mem_map, List.mem_filter]
    constructor
    · rintro ⟨e, ⟨he, hsel⟩, hp⟩
      exact ⟨e, he, hsel, hp.symm⟩
    · rintro ⟨e, he, hsel, hp⟩
      exact ⟨e, ⟨he, hsel⟩, hp.symm⟩
  · simp only [extract_all_paths, List.mem_map, List.mem_filter]
    constructor
    · rintro ⟨e, ⟨he, hsel⟩, hp⟩
      exact ⟨e, he, hsel, hp.symm⟩
    · rintro ⟨e, he, hsel, hp⟩
      exact ⟨e, ⟨he, hsel⟩, hp.symm⟩

/-- C6 witness: the archive `[LICENSE.txt, fonts/A.TTF]` yields via
`extract_all_fonts` the base-name-only path for the selected entry, and via
`install_fonts.extract_fonts_from_zip` the directory-preserving temp path
for the same entry. -/
theorem c6_witness :
    (["ufonts", "A.TTF"] ∈ extract_all_paths ["ufonts"]
        [{ filename := "LICENSE.txt", content := [] },
         { filename := "fonts/A.TTF", content := [1] }]) ∧
    (["tmp", "fonts", "A.TTF"] ∈ extract_fonts_from_zip ["tmp"]
        [{ filename := "LICENSE.txt", content := [] },
         { filename := "fonts/A.TTF", content := [1] }]) := by
  constructor
  · exact (c6_selection_and_names ["tmp"] ["ufonts"]
        [{ filename := "LICENSE.txt", content := [] },
         { filename := "fonts/A.TTF", content := [1] }] ["ufonts", "A.TTF"]).2.mpr
      ⟨{ filename := "fonts/A.TTF", content := [1] }, by decide, by decide, by decide⟩
  · exact (c6_selection_and_names ["tmp"] ["ufonts"]
        [{ filename := "LICENSE.txt", content := [] },
         { filename := "fonts/A.TTF", content := [1] }] ["tmp", "fonts", "A.TTF"]).1.mpr
      ⟨{ filename := "fonts/A.TTF", content := [1] }, by decide, by decide, by decide⟩

/-- C6 counterexample: extracting the single entry `fonts/a.ttf` with
`install_fonts.extract_fonts_from_zip` yields the path
`tmp/fonts/a.ttf` — the archive-supplied directory component `fonts` is
preserved in the extracted file path, not discarded — refuting "no extracted
or installed file path contains an archive-supplied directory component". -/
theorem c6_counterexample :
    extract_fonts_from_zip ["tmp"] [{ filename := "fonts/a.ttf", content := [1] }]
        = [["tmp", "fonts", "a.ttf"]] ∧
    "fonts" ∈ (["tmp", "fonts", "a.ttf"] : List String) ∧
    (["tmp", "fonts", "a.ttf"] : List String) ≠ ["tmp", "a.ttf"] := by
  decide

/-! ### Per-archive installation accounting (for C7) -/

/-- The `stats` dictionary of `install_fonts.install_all_fonts`. -/
structure InstStats where
  processed : Nat
  installed : Nat
  failed : Nat
deriving DecidableEq, Repr

/-- The body of the per-archive loop of `install_fonts.install_all_fonts`
(lines 140-164), parameterised by the per-file install oracle `inst`:
increment `processed`; extract; with zero extracted font files log
`"No font files found in <zip>"` and increment `failed`; otherwise install
every file and increment `installed` when all succeed, `failed` otherwise.
Returns the new stats and the warning messages logged. -/
def install_all_step (inst : List String → Bool) (tempDir : List String)
    (zipName : String) (stats : InstStats) (entries : List ZipEntry) :
    InstStats × List String :=
  let stats1 : InstStats :=
    { stats with processed := stats.processed + 1 }
  let font_files := extract_fonts_from_zip tempDir entries
  if font_files.isEmpty then
    ({ stats1 with failed := stats1.failed + 1 },
      ["No font files found in " ++ zipName])
  else
    if font_files.all inst then
      ({ stats1 with installed := stats1.installed + 1 }, [])
    else
      ({ stats1 with failed := stats1.failed + 1 }, [])

/-! ### C7 -/

/-- C7 amended: an archive that opens but contains zero entries with an
accepted font extension is counted in the run's failed tally — `failed` is
incremented and `installed` is not (never Success with an empty set of
files) — and the logged reason is `"No font files found in <zip name>"`
(not the literal string `"no font files found"`, see the counterexample;
`proper_font_installer.run` merely excludes such a package from its success
count, without a failed tally). -/
theorem c7_empty_archive_failed (inst : List String → Bool) (tempDir : List String)
    (zipName : String) (stats : InstStats) (entries : List ZipEntry)
    (h : extract_fonts_from_zip tempDir entries = []) :
    (install_all_step inst tempDir zipName stats entries).1.failed = stats.failed + 1 ∧
    (install_all_step inst tempDir zipName stats entries).1.installed = stats.installed ∧
    (install_all_step inst tempDir zipName stats entries).2
      = ["No font files found in " ++ zipName] := by
  refine ⟨?_, ?_, ?_⟩ <;> simp [install_all_step, h]

/-- C7 witness: the archive for `"baz"` holding only `LICENSE.txt` extracts
to zero font files; applying the theorem, the failed tally grows from 0 to
1, nothing is installed, and the warning names the archive. -/
theorem c7_witness :
    extract_fonts_from_zip ["tmp"] [{ filename := "LICENSE.txt", content := [2] }] = [] ∧
    (install_all_step (fun _ => true) ["tmp"] "baz.zip"
        { processed := 0, installed := 0, failed := 0 }
        [{ filename := "LICENSE.txt", content := [2] }]).1.failed = 1 ∧
    (install_all_step (fun _ => true) ["tmp"] "baz.zip"
        { processed := 0, installed := 0, failed := 0 }
        [{ filename := "LICENSE.txt", content := [2] }]).1.installed = 0 := by
  refine ⟨by decide, ?_, ?_⟩
  · exact (c7_empty_archive_failed (fun _ => true) ["tmp"] "baz.zip"
      { processed := 0, installed := 0, failed := 0 }
      [{ filename := "LICENSE.txt", content := [2] }] (by decide)).1
  · exact (c7_empty_archive_failed (fun _ => true) ["tmp"] "baz.zip"
      { processed := 0, installed := 0, failed := 0 }
      [{ filename := "LICENSE.txt", content := [2] }] (by decide)).2.1

/-- C7 counterexample: the reason logged for `"baz"` is
`"No font files found in baz.zip"`, which is not the claim's literal reason
string `"no font files found"`. -/
theorem c7_counterexample :
    (install_all_step (fun _ => true) ["tmp"] "baz.zip"
        { processed := 0, installed := 0, failed := 0 }
        [{ filename := "LICENSE.txt", content := [2] }]).2
      = ["No font files found in baz.zip"] ∧
    "No font files found in baz.zip" ≠ "no font files found" := by
  decide

/-! ### Catalog discovery (for C8) -/

/-- `name.lower().replace(' ', '-')` from
`fontshare_downloader._extract_font_names` (lines 136, 138), on ASCII text. -/
def normalize (s : String) : String :=
  String.mk ((s.data.map lowerChar).map (fun c => if c = ' ' then '-' else c))

/-- One element of a candidate font collection in the catalog JSON: a dict
(with its optional `slug`, `name` and `id` fields), a plain string, or
anything else (ignored by the source). -/
inductive JEntry
  | obj (slug nm id : Option String)
  | jstr (s : String)
  | other
deriving DecidableEq, Repr

/-- Python's `a or b` on optional strings: `a` unless it is missing or
empty. -/
def pyOrStr : Option String → Option String → Option String
  | some s, b => if s = "" then b else some s
  | none, b => b

/-- Python truthiness of an optional string (`if name:`). -/
def pyTruthyStr : Option String → Option String
  | some s => if s = "" then none else some s
  | none => none

/-- The identifier one collection element contributes in
`_extract_font_names` (lines 131-138): for a dict,
`font.get('slug') or font.get('name') or font.get('id')`, appended
normalized only when truthy; for a plain string, appended normalized
unconditionally; anything else contributes nothing. -/
def entryContribution : JEntry → Option String
  | JEntry.obj slug nm id => (pyTruthyStr (pyOrStr slug (pyOrStr nm id))).map normalize
  | JEntry.jstr s => some (normalize s)
  | JEntry.other => none

/-- The key precedence of `_extract_font_names` (line 125). -/
def possible_keys : List String := ["fonts", "data", "items", "results"]

/-- `fontshare_downloader._extract_font_names` (lines 120-140): for each of
the conventional keys present in the response and bound to a list, append
the contribution of every element.  The input models the JSON dict: per key,
the bound list, or `none` when the key is absent or not bound to a list.
Note there is no deduplication here. -/
def extract_font_names (data : String → Option (List JEntry)) : List String :=
  possible_keys.foldl
    (fun acc k =>
      match data k with
      | some entries => acc ++ entries.filterMap entryContribution
      | none => acc)
    []

/-- The character guarantee of the href regex of
`_parse_fonts_from_html` (line 160): its capture group `([a-z-]+)` admits
only lowercase ASCII letters and hyphens. -/
def isLowerHyphen (s : String) : Bool :=
  s.data.all (fun c => decide (c.toNat = 45 ∨ (97 ≤ c.toNat ∧ c.toNat ≤ 122)))

/-- The href path of `fontshare_downloader._parse_fonts_from_html`
(lines 160-166): from the regex candidates, keep the names with
`len(name) > 2 and '-' in name and not name.startswith('www')`, then
deduplicate via `list(set(fonts))` (whose ordering Python leaves
unspecified; the model keeps one occurrence of each element). -/
def parse_fonts_href (candidates : List String) : List String :=
  (candidates.filter (fun nm =>
    decide (2 < nm.data.length) && nm.data.contains '-' &&
      !(decide (nm.data.take 3 = ['w', 'w', 'w'])))).dedup

/-- The hard-coded identifier list of the `ImportError` branch of
`fontshare_downloader._get_fallback_fonts` (lines 192-196) — the branch
taken in this corpus, where no `font_list` module exists. -/
def fallback_fonts : List String :=
  ["satoshi", "cabinet-grotesk", "clash-display", "general-sans",
   "switzer", "clash-grotesk", "supreme", "author", "zodiak",
   "eiko", "fraktion", "sohne", "chillax"]

/-- Python truthiness of a strategy result (`if fonts:`): a non-empty list. -/
def pyTruthyList : Option (List String) → Option (List String)
  | some [] => none
  | some (x :: xs) => some (x :: xs)
  | none => none

/-- `fontshare_downloader.discover_fonts` (lines 57-82): try API discovery,
then website parsing, then the fallback list; the first truthy (non-empty)
result wins.  A strategy that raised is modelled as `none` — its exceptions
are caught inside `_try_api_discovery`/`_try_website_parsing`, which then
return `None`, and discovery moves on. -/
def discover_fonts (apiRes webRes : Option (List String)) (fallback : List String) :
    List String :=
  match pyTruthyList apiRes with
  | some fonts => fonts
  | none =>
      match pyTruthyList webRes with
      | some fonts => fonts
      | none => fallback

/-- Helper: every contributed identifier is a normalized string. -/
theorem entryContribution_normalized (e : JEntry) (y : String)
    (h : entryContribution e = some y) : ∃ s, y = normalize s := by
  cases e with
  | obj slug nm id =>
      simp only [entryContribution] at h
      cases hp : pyTruthyStr (pyOrStr slug (pyOrStr nm id)) with
      | none => rw [hp] at h; simp at h
      | some a =>
          rw [hp] at h
          exact ⟨a, (Option.some_inj.mp h).symm⟩
  | jstr s =>
      refine ⟨s, ?_⟩
      simp only [entryContribution] at h
      exact (Option.some_inj.mp h).symm
  | other => simp [entryContribution] at h

/-- Helper: everything the key-scanning fold adds beyond its accumulator is
a normalized string. -/
theorem extract_names_fold_normalized (data : String → Option (List JEntry))
    (keys : List String) (acc : List String)
    (hacc : ∀ x ∈ acc, ∃ s, x = normalize s) :
    ∀ x ∈ keys.foldl
        (fun acc k =>
          match data k with
          | some entries => acc ++ entries.filterMap entryContribution
          | none => acc)
        acc, ∃ s, x = normalize s := by
  induction keys generalizing acc with
  | nil => exact hacc
  | cons k rest ih =>
      intro x hx
      refine ih _ ?_ x hx
      intro y hy
      have hy2 : y ∈ (match data k with
          | some entries => acc ++ entries.filterMap entryContribution
          | none => acc) := hy
      cases hd : data k with
      | none =>
          rw [hd] at hy2
          exact hacc y hy2
      | some entries =>
          rw [hd] at hy2
          rcases List.mem_append.mp hy2 with hy3 | hy3
          · exact hacc y hy3
          · obtain ⟨e, _, he⟩ := List.mem_filterMap.mp hy3
            exact entryContribution_normalized e y he

/-- Helper: a character list of lowercase letters and hyphens is fixed by
the character maps of `normalize`. -/
theorem map_norm_chars_fixed (l : List Char)
    (h : l.all (fun c => decide (c.toNat = 45 ∨ (97 ≤ c.toNat ∧ c.toNat ≤ 122))) = true) :
    (l.map lowerChar).map (fun c => if c = ' ' then '-' else c) = l := by
  induction l with
  | nil => rfl
  | cons c rest ih =>
      rw [List.all_cons, Bool.and_eq_true] at h
      obtain ⟨hc, hrest⟩ := h
      have hc2 := of_decide_eq_true hc
      have hlc : lowerChar c = c := by
        unfold lowerChar
        rw [if_neg]
        omega
      have hne : ¬ (c = ' ') := by
        intro hsp
        have h32 : (' ').toNat = 32 := rfl
        rw [hsp, h32] at hc2
        omega
      simp only [List.map_cons]
      rw [ih hrest, hlc, if_neg hne]

/-- Helper: a string of lowercase letters and hyphens — such as every href
regex candidate — is already normalized. -/
theorem normalize_fixed_of_lowerHyphen (s : String) (h : isLowerHyphen s = true) :
    normalize s = s := by
  cases s with
  | mk data =>
      have h2 : data.all
          (fun c => decide (c.toNat = 45 ∨ (97 ≤ c.toNat ∧ c.toNat ≤ 122))) = true := h
      show String.mk ((data.map lowerChar).map (fun c => if c = ' ' then '-' else c))
        = String.mk data
      rw [map_norm_chars_fixed data h2]

/-- Helper: the href path only returns (filtered) regex candidates. -/
theorem parse_fonts_href_subset (cands : List String) (x : String)
    (hx : x ∈ parse_fonts_href cands) : x ∈ cands := by
  unfold parse_fonts_href at hx
  exact (List.mem_filter.mp (List.mem_dedup.mp hx)).1

/-! ### C8 -/

/-- C8 amended: discovery tries its strategies in the fixed order — API
endpoint, then website parsing, then the fallback list — and the first
truthy (non-empty) result wins; a strategy failure (modelled `none`, since
each strategy catches its own exceptions and returns `None`) never aborts
discovery, the next strategy is simply consulted; and every returned
identifier is normalized (lowercased, spaces to hyphens), whichever strategy
produced it: the structured-endpoint parser (also used on JSON found in the
HTML) applies the normalization to every name it emits, the HTML link-scan's
regex admits only lowercase-hyphen tokens, which normalization fixes, and
the built-in fallback identifiers are normalized literals.  The HTML
link-scan path also deduplicates — and its all-lowercase result has no
case-insensitive duplicates.  The amendment: the structured-endpoint parser
performs *no* deduplication, so the discovery result can contain
case-insensitive duplicates (see the counterexample). -/
theorem c8_discovery_order_and_normalization (apiRes webRes : Option (List String))
    (fallback : List String) (data : String → Option (List JEntry))
    (cands : List String) (hcands : ∀ nm ∈ cands, isLowerHyphen nm = true) :
    (∀ l, pyTruthyList apiRes = some l →
      discover_fonts apiRes webRes fallback = l) ∧
    (pyTruthyList apiRes = none → ∀ l, pyTruthyList webRes = some l →
      discover_fonts apiRes webRes fallback = l) ∧
    (pyTruthyList apiRes = none → pyTruthyList webRes = none →
      discover_fonts apiRes webRes fallback = fallback) ∧
    (∀ x ∈ extract_font_names data, ∃ s, x = normalize s) ∧
    (∀ x ∈ parse_fonts_href cands, normalize x = x) ∧
    ((parse_fonts_href cands).Nodup ∧
      ((parse_fonts_href cands).map normalize).Nodup) ∧
    (∀ x ∈ fallback_fonts, normalize x = x) := by
  have hfix : ∀ x ∈ parse_fonts_href cands, normalize x = x := by
    intro x hx
    exact normalize_fixed_of_lowerHyphen x (hcands x (parse_fonts_href_subset cands x hx))
  have hmapid : (parse_fonts_href cands).map normalize = parse_fonts_href cands := by
    conv_rhs => rw [← List.map_id (parse_fonts_href cands)]
    exact List.map_congr_left hfix
  refine ⟨?_, ?_, ?_, ?_, hfix, ⟨List.nodup_dedup _, ?_⟩, ?_⟩
  · intro l hl
    simp [discover_fonts, hl]
  · intro ha l hl
    simp [discover_fonts, ha, hl]
  · intro ha hw
    simp [discover_fonts, ha, hw]
  · exact extract_names_fold_normalized data possible_keys [] (by simp)
  · rw [hmapid]
    exact List.nodup_dedup _
  · intro x hx
    fin_cases hx <;> decide

/-- C8 witness: with a failing API strategy and a website strategy finding
`["clash-display"]`, discovery returns the website result, and with both
failing it returns the fallback; concretely, the href path maps the
candidates `["clash-display", "clash-display", "www-foo", "ab"]` to a
duplicate-free result whose member `"clash-display"` is normalized, and the
fallback literal `"satoshi"` is normalized. -/
theorem c8_witness :
    discover_fonts none (some ["clash-display"]) ["satoshi"] = ["clash-display"] ∧
    discover_fonts none none ["satoshi"] = ["satoshi"] ∧
    normalize "clash-display" = "clash-display" ∧
    (parse_fonts_href ["clash-display", "clash-display", "www-foo", "ab"]).Nodup ∧
    normalize "satoshi" = "satoshi" := by
  have h := c8_discovery_order_and_normalization none (some ["clash-display"])
    ["satoshi"] (fun _ => none)
    ["clash-display", "clash-display", "www-foo", "ab"] (by decide)
  have h2 := c8_discovery_order_and_normalization none none
    ["satoshi"] (fun _ => none) [] (by decide)
  refine ⟨h.2.1 rfl ["clash-display"] rfl, h2.2.2.1 rfl rfl, ?_, h.2.2.2.2.2.1.1, ?_⟩
  · exact h.2.2.2.2.1 "clash-display" (by decide)
  · exact h.2.2.2.2.2.2 "satoshi" (by decide)

/-- The catalog response `{"fonts": ["Satoshi", "satoshi"]}`. -/
def dupData : String → Option (List JEntry) :=
  fun k => if k = "fonts" then some [JEntry.jstr "Satoshi", JEntry.jstr "satoshi"] else none

/-- C8 counterexample: the structured-endpoint parser maps the response
`{"fonts": ["Satoshi", "satoshi"]}` to `["satoshi", "satoshi"]` — a
case-insensitive duplicate pair that discovery hands on unchanged — refuting
"the result contains no case-insensitive duplicates". -/
theorem c8_counterexample :
    extract_font_names dupData = ["satoshi", "satoshi"] ∧
    ¬ (extract_font_names dupData).Nodup ∧
    discover_fonts (some (extract_font_names dupData)) none ["x"]
      = ["satoshi", "satoshi"] := by
  refine ⟨by decide, by decide, by decide⟩

/-! ### Run-level aggregation (for C9) -/

/-- The `stats` dictionary of `fontshare_downloader.download_all_fonts`
(lines 274-278): exactly three counts. -/
structure DLStats where
  total : Nat
  success : Nat
  failed : Nat
deriving DecidableEq, Repr

/-- The Boolean each `download_font` task returns (line 220/234: `True` for
a skip or a success, line 237/241: `False` for a failure). -/
def outcomeBool : Outcome → Bool
  | Outcome.failed _ => false
  | _ => true

/-- `fontshare_downloader.download_all_fonts` (lines 256-281): one task per
identifier; `success_count = sum(results)` over the Boolean results,
`failed_count = len(results) - success_count`, and the returned stats are
`{"total": len(font_list), "success": success_count, "failed": failed_count}`.
No skipped count and no failed-identifier list appear in the source. -/
def download_all_fonts (backend : Backend) (fs : FS) (names : List Identifier) :
    DLStats :=
  { total := names.length,
    success := (((runFetch backend fs names).outcomes).map
      (fun p => outcomeBool p.2)).count true,
    failed := ((runFetch backend fs names).outcomes).length -
      (((runFetch backend fs names).outcomes).map
        (fun p => outcomeBool p.2)).count true }

/-- Helper: a fetch run records outcomes for exactly the input identifiers,
in order. -/
theorem runFetch_fst (backend : Backend) (fs : FS) (names : List Identifier) :
    ((runFetch backend fs names).outcomes).map Prod.fst = names := by
  induction names generalizing fs with
  | nil => rfl
  | cons n rest ih => simp [runFetch, ih]

/-- Helper: counting `true` among mapped Booleans is the length of the
filtered list. -/
theorem count_true_map_eq_length_filter (l : List (Identifier × Outcome)) :
    ((l.map (fun p => outcomeBool p.2)).count true)
      = (l.filter (fun p => outcomeBool p.2)).length := by
  induction l with
  | nil => rfl
  | cons p rest ih =>
      by_cases hp : outcomeBool p.2 = true
      · simp [List.count_cons, hp, ih]
      · simp only [Bool.not_eq_true] at hp
        simp [List.count_cons, hp, ih]

/-! ### C9 -/

/-- C9 amended: a completed run records exactly one outcome per input
identifier (the outcome list projects back to the input list), and
aggregates them into *three* counts — total, success, failed — with
`total = success + failed` and `total` the number of input identifiers,
where `success` counts the identifiers whose task returned `True`, i.e.
Skipped identifiers are counted under success; no separate skipped count and
no failed-identifier/reason list are produced (failures are only logged). -/
theorem c9_one_outcome_three_counts (backend : Backend) (fs : FS)
    (names : List Identifier) :
    ((runFetch backend fs names).outcomes).map Prod.fst = names ∧
    (download_all_fonts backend fs names).total = names.length ∧
    (download_all_fonts backend fs names).success +
        (download_all_fonts backend fs names).failed
      = (download_all_fonts backend fs names).total ∧
    (download_all_fonts backend fs names).success
      = ((runFetch backend fs names).outcomes.filter
          (fun p => outcomeBool p.2)).length := by
  have hfst := runFetch_fst backend fs names
  have hlen : (runFetch backend fs names).outcomes.length = names.length := by
    conv_rhs => rw [← hfst]
    rw [List.length_map]
  have hcount := count_true_map_eq_length_filter (runFetch backend fs names).outcomes
  have hcle : (((runFetch backend fs names).outcomes).map
      (fun p => outcomeBool p.2)).count true
      ≤ (runFetch backend fs names).outcomes.length := by
    have h := List.count_le_length true
      (((runFetch backend fs names).outcomes).map (fun p => outcomeBool p.2))
    simpa using h
  refine ⟨hfst, rfl, ?_, ?_⟩
  · simp only [download_all_fonts]
    omega
  · simp only [download_all_fonts, hcount]

/-- C9 counterexample: a run over the single, already-downloaded identifier
`"bar"` records the outcome Skipped, yet the aggregate is
`{total := 1, success := 1, failed := 0}` — the skipped identifier is
counted under success and there is no fourth (skipped) count and no
failed-identifier list — refuting the claimed four-count aggregation. -/
theorem c9_counterexample :
    (runFetch backend404 fsBar ["bar"]).outcomes = [("bar", Outcome.skipped)] ∧
    download_all_fonts backend404 fsBar ["bar"]
      = { total := 1, success := 1, failed := 0 } := by
  refine ⟨by decide, by decide⟩

end Fontshare
